import Mathlib

/-
Verification development for the will-exp-nextjs-bullmq job-queue prototype.

The embedding models, directly from the TypeScript/SQL sources:
  - the jobs table (migrations/001_create_jobs_table.sql) as a list of rows;
  - the POST and GET handlers of nextjs-app/app/api/jobs/route.ts;
  - publishJob and publishEmailJob of nextjs-app/shared/lib/queue.ts,
    with the BullMQ queue modelled as a list of enqueued messages;
  - processEmailJob of worker/src/processors/email-processor.ts, whose three
    UPDATE statements are modelled as unconditional per-row writes.

Timestamps (SQL NOW and new Date) are modelled as Nat clock values supplied
by the caller; randomUUID is modelled as a caller-supplied identifier whose
freshness is an explicit hypothesis where a theorem needs it.
-/

set_option linter.unusedVariables false

namespace JobQueue

/-- Job status values, from the CHECK constraint on jobs.status in
migrations/001_create_jobs_table.sql and JobStatus in shared/src/types/index.ts. -/
inductive JobStatus where
  | pending
  | processing
  | completed
  | failed
  deriving DecidableEq, Repr

/-- Text of each status as stored in the status VARCHAR column. -/
def statusText : JobStatus → String
  | .pending => "pending"
  | .processing => "processing"
  | .completed => "completed"
  | .failed => "failed"

/-- The JSON text of an empty object, the value JSON.stringify gives for a
missing job payload in the POST handler. -/
def jsonEmpty : String := "\x7b\x7d"

/-- One row of the jobs table, columns as in migrations/001_create_jobs_table.sql.
Timestamps are Nat clock values; nullable columns are Option. -/
structure JobRow where
  id : String
  job_type : String
  status : JobStatus
  job_data : String
  result : Option String
  error_message : Option String
  created_at : Nat
  updated_at : Nat
  completed_at : Option Nat
  deriving DecidableEq, Repr

/-- The JobData envelope built by publishEmailJob in shared/lib/queue.ts and read
back by the worker (it reads jobId and jobData from job.data). -/
structure MsgData where
  jobId : String
  jobType : String
  status : JobStatus
  jobData : String
  createdAt : Nat
  updatedAt : Nat
  deriving DecidableEq, Repr

/-- A message sitting in a BullMQ queue, as produced by queue.add in publishJob:
the queue it was added to, the job name (publishJob passes the queue name), the
data envelope, and the options publishJob computes. -/
structure QueueMsg where
  queueName : String
  name : String
  data : MsgData
  delay : Option Nat
  attempts : Nat
  backoffType : String
  backoffDelay : Nat
  deriving DecidableEq, Repr

/-- CreateJobInput from shared/src/types/index.ts, with the payload kept as
opaque JSON text. -/
structure CreateJobInput where
  jobId : String
  jobType : String
  jobData : String
  deriving DecidableEq, Repr

/-- The combined state the POST handler touches: the jobs table and the
broker queue contents. -/
structure Sys where
  store : List JobRow
  queue : List QueueMsg
  deriving DecidableEq, Repr

/-- publishJob from shared/lib/queue.ts: adds one message to the named queue,
job name equal to the queue name, attempts defaulting to 3 (a 0 passed in is
replaced by 3, the JS falsy-or), backoff defaulting to exponential 2000ms. -/
def publishJob (queue : List QueueMsg) (queueName : String) (d : MsgData)
    (delay : Option Nat) (attempts : Option Nat) (backoff : Option (String × Nat)) :
    List QueueMsg :=
  queue ++ [{ queueName := queueName
              name := queueName
              data := d
              delay := delay
              attempts := match attempts with
                | some n => if n = 0 then 3 else n
                | none => 3
              backoffType := (backoff.getD ("exponential", 2000)).1
              backoffDelay := (backoff.getD ("exponential", 2000)).2 }]

/-- publishEmailJob from shared/lib/queue.ts: wraps the input in a JobData
envelope with status pending and both timestamps equal to the current time,
then publishes it on the queue named email with no options. -/
def publishEmailJob (queue : List QueueMsg) (input : CreateJobInput) (now : Nat) :
    List QueueMsg :=
  publishJob queue "email"
    { jobId := input.jobId
      jobType := input.jobType
      status := .pending
      jobData := input.jobData
      createdAt := now
      updatedAt := now }
    none none none

/-- The validJobTypes list of the POST handler in app/api/jobs/route.ts. -/
def validJobTypes : List String := ["email", "notification", "report"]

/-- The POST handler's job-type check: jobType must be present (a missing or
empty value is falsy) and a member of validJobTypes. An empty string is not a
member of validJobTypes, so the falsy check adds nothing beyond presence. -/
def isValidJobType : Option String → Bool
  | none => false
  | some s => validJobTypes.contains s

/-- Outcome of the POST handler: 201 with the job id, 400 for a bad job type,
or 500 when the catch block runs (here: the INSERT hit a duplicate primary key). -/
inductive PostResult where
  | created (jobId : String)
  | invalidType
  | serverError
  deriving DecidableEq, Repr

/-- The request body of the POST handler: jobType and jobData as parsed from
JSON, payload kept as opaque JSON text. -/
structure Body where
  jobType : Option String
  jobData : Option String
  deriving DecidableEq, Repr

/-- POST from app/api/jobs/route.ts. Validates the job type, inserts a pending
row into the jobs table (the INSERT throws on a duplicate primary key, caught
by the catch block as a 500 with nothing else done), then publishes the job via
publishEmailJob. The generated randomUUID is the newId parameter and NOW is now. -/
def POST (sys : Sys) (body : Body) (newId : String) (now : Nat) : PostResult × Sys :=
  match body.jobType with
  | none => (.invalidType, sys)
  | some jt =>
    if validJobTypes.contains jt then
      if sys.store.any (fun r => r.id = newId) then
        (.serverError, sys)
      else
        let row : JobRow :=
          { id := newId
            job_type := jt
            status := .pending
            job_data := body.jobData.getD jsonEmpty
            result := none
            error_message := none
            created_at := now
            updated_at := now
            completed_at := none }
        let queue2 := publishEmailJob sys.queue
          { jobId := newId, jobType := jt, jobData := body.jobData.getD jsonEmpty } now
        (.created newId, { store := sys.store ++ [row], queue := queue2 })
    else (.invalidType, sys)

/-- Query parameters of the GET handler. The handler reads only jobId, status,
limit and offset from the search params; a type parameter may be present in the
request URL but the handler never reads it. limit and offset carry the parsed
values with their defaults (50 and 0) already applied. -/
structure GetParams where
  jobId : Option String
  status : Option String
  jobType : Option String
  limit : Nat
  offset : Nat
  deriving DecidableEq, Repr

/-- Outcome of the GET handler: a single job, a 404, or the list response
carrying the rows, their count, and the limit and offset echoed back. -/
inductive GetResult where
  | job (j : JobRow)
  | notFound
  | jobs (rows : List JobRow) (count : Nat) (limit : Nat) (offset : Nat)
  deriving DecidableEq, Repr

/-- Insertion step for sorting rows by created_at descending, modelling the
ORDER BY created_at DESC of the GET handler's list query. -/
def insertDesc (r : JobRow) : List JobRow → List JobRow
  | [] => [r]
  | x :: xs => if x.created_at ≤ r.created_at then r :: x :: xs else x :: insertDesc r xs

/-- Sort rows by created_at descending (insertion sort). -/
def sortByCreatedDesc : List JobRow → List JobRow
  | [] => []
  | x :: xs => insertDesc x (sortByCreatedDesc xs)

/-- The list branch of the GET handler: WHERE status matches when a status
filter is given, ORDER BY created_at DESC, then OFFSET and LIMIT. -/
def listQuery (rows : List JobRow) (status : Option String) (limit offset : Nat) :
    List JobRow :=
  let filtered := match status with
    | none => rows
    | some s => rows.filter (fun r => statusText r.status = s)
  (((sortByCreatedDesc filtered).drop offset).take limit)

/-- GET from app/api/jobs/route.ts. With a jobId parameter it selects that row
(404 when absent); otherwise it runs the list query, filtered only by status. -/
def GET (rows : List JobRow) (p : GetParams) : GetResult :=
  match p.jobId with
  | some id =>
    match rows.find? (fun r => r.id = id) with
    | none => .notFound
    | some j => .job j
  | none =>
    let out := listQuery rows p.status p.limit p.offset
    .jobs out out.length p.limit p.offset

/-- One status-writing UPDATE statement of processEmailJob, identified by the
columns it sets: processing sets status and updated_at; completed sets status,
completed_at and updated_at; failed sets status, error_message and updated_at. -/
inductive StatusWrite where
  | toProcessing (t : Nat)
  | toCompleted (t : Nat)
  | toFailed (msg : String) (t : Nat)
  deriving DecidableEq, Repr

/-- The status each write requests. -/
def writeStatus : StatusWrite → JobStatus
  | .toProcessing _ => .processing
  | .toCompleted _ => .completed
  | .toFailed _ _ => .failed

/-- Effect of one UPDATE statement on a single row, exactly the columns the
corresponding SQL statement in processEmailJob sets. -/
def writeRow (w : StatusWrite) (r : JobRow) : JobRow :=
  match w with
  | .toProcessing t => { r with status := .processing, updated_at := t }
  | .toCompleted t => { r with status := .completed, completed_at := some t, updated_at := t }
  | .toFailed m t => { r with status := .failed, error_message := some m, updated_at := t }

/-- One UPDATE jobs SET ... WHERE id equals the given id: rewrites every row
whose id matches, unconditionally, and leaves the rest untouched. -/
def applyWrite (rows : List JobRow) (id : String) (w : StatusWrite) : List JobRow :=
  rows.map (fun r => if r.id = id then writeRow w r else r)

/-- A sequence of worker status writes, each aimed at some job id. -/
def runWrites (rows : List JobRow) (ops : List (String × StatusWrite)) : List JobRow :=
  ops.foldl (fun rs p => applyWrite rs p.1 p.2) rows

/-- processEmailJob from worker/src/processors/email-processor.ts: first sets
the row to processing, then runs the simulated email send (its outcome is the
outcome parameter), then writes completed on success or failed with the error
message on failure. Returns the updated table together with the list of handler
executions performed in this call, one entry per invocation of the email-send
body; the source invokes it unconditionally, once per delivery. t1 and t2 are
the NOW values of the first and the terminal UPDATE. -/
def processEmailJob (rows : List JobRow) (d : MsgData) (outcome : Except String Unit)
    (t1 t2 : Nat) : List JobRow × List String :=
  let rows1 := applyWrite rows d.jobId (.toProcessing t1)
  match outcome with
  | .ok _ => (applyWrite rows1 d.jobId (.toCompleted t2), [d.jobId])
  | .error e => (applyWrite rows1 d.jobId (.toFailed e t2), [d.jobId])

/-- Deliver the same queue message several times in sequence (BullMQ may
redeliver), collecting all handler executions. Each list entry is the outcome
and the two UPDATE times of one delivery. -/
def runDeliveries (rows : List JobRow) (d : MsgData) :
    List (Except String Unit × Nat × Nat) → List JobRow × List String
  | [] => (rows, [])
  | (o, t1, t2) :: rest =>
    let step := processEmailJob rows d o t1 t2
    let restRun := runDeliveries step.1 d rest
    (restRun.1, step.2 ++ restRun.2)

/-- Name of the queue the worker in worker/src/index.ts consumes. -/
def emailWorkerQueueName : String := "email"

/-- Concurrency setting of the email worker in worker/src/index.ts. -/
def emailWorkerConcurrency : Nat := 5

/-- Modelled from the spec: the job-store status transitions the spec declares
legal for updateStatus (pending to processing, processing to completed,
processing to failed, failed to pending). The repository has no updateStatus
function; this definition exists only to compare the worker's actual writes
against the transition set the spec describes. -/
def specAllowedTransition : JobStatus → JobStatus → Bool
  | .pending, .processing => true
  | .processing, .completed => true
  | .processing, .failed => true
  | .failed, .pending => true
  | _, _ => false

/-- No message in the queue references a job id that has no store row. -/
def noOrphans (sys : Sys) : Prop :=
  ∀ m ∈ sys.queue, ∃ r ∈ sys.store, r.id = m.data.jobId

/-- Example row: a completed job, used as concrete input in counterexamples. -/
def rowCompleted : JobRow :=
  { id := "j1", job_type := "email", status := .completed, job_data := jsonEmpty,
    result := none, error_message := none,
    created_at := 0, updated_at := 1, completed_at := some 1 }

/-- Example row: a pending job, used as concrete input in counterexamples. -/
def rowPending : JobRow :=
  { id := "j2", job_type := "email", status := .pending, job_data := jsonEmpty,
    result := none, error_message := none,
    created_at := 0, updated_at := 0, completed_at := none }

/-- Example message envelope addressing the pending example row. -/
def msgPending : MsgData :=
  { jobId := "j2", jobType := "email", status := .pending, jobData := jsonEmpty,
    createdAt := 0, updatedAt := 0 }

/-- Example row of type notification, used in the list-filter counterexample. -/
def rowNotif : JobRow :=
  { id := "j3", job_type := "notification", status := .completed, job_data := jsonEmpty,
    result := none, error_message := none,
    created_at := 2, updated_at := 3, completed_at := some 3 }

/-- The row the POST handler's INSERT writes for a fresh submission: status
pending, both timestamps NOW, the nullable columns null. -/
def postRow (id jt jd : String) (now : Nat) : JobRow :=
  { id := id, job_type := jt, status := .pending, job_data := jd,
    result := none, error_message := none,
    created_at := now, updated_at := now, completed_at := none }

/-- The queue message publishEmailJob produces for a fresh submission: queue
email, default options (3 attempts, exponential backoff of 2000ms, no delay). -/
def postMsg (id jt jd : String) (now : Nat) : QueueMsg :=
  { queueName := "email", name := "email",
    data := { jobId := id, jobType := jt, status := .pending, jobData := jd,
              createdAt := now, updatedAt := now },
    delay := none, attempts := 3, backoffType := "exponential", backoffDelay := 2000 }

/-- Example request body asking for an email job with no payload. -/
def bodyEmail : Body := { jobType := some "email", jobData := none }

/-- Example request body asking for a report job with no payload. -/
def bodyReport : Body := { jobType := some "report", jobData := none }

/-- Example request body with an unregistered job type. -/
def bodyBad : Body := { jobType := some "sms", jobData := none }

/-- Example state: empty store and empty queue. -/
def sysEmpty : Sys := { store := [], queue := [] }

/-- Example state whose store already holds the id j1. -/
def sysDup : Sys := { store := [rowCompleted], queue := [] }

/-- Example message envelope addressing the id a1 generated in witnesses. -/
def msgA : MsgData :=
  { jobId := "a1", jobType := "email", status := .pending, jobData := jsonEmpty,
    createdAt := 7, updatedAt := 7 }

/-- Helper: find? skips a prefix on which the predicate is everywhere false. -/
theorem find_append_none (l1 l2 : List JobRow) (p : JobRow → Bool)
    (h : ∀ r ∈ l1, p r = false) : (l1 ++ l2).find? p = l2.find? p := by
  induction l1 with
  | nil => rfl
  | cons x xs ih =>
    have hx := h x (List.mem_cons_self x xs)
    simp only [List.cons_append, List.find?]
    rw [hx]
    exact ih (fun r hr => h r (List.mem_cons_of_mem x hr))

/-- Helper: membership in the insertion step of the descending sort. -/
theorem mem_insertDesc {y r : JobRow} {l : List JobRow} :
    y ∈ insertDesc r l ↔ y = r ∨ y ∈ l := by
  induction l with
  | nil => simp [insertDesc]
  | cons x xs ih =>
    by_cases hc : x.created_at ≤ r.created_at
    · simp [insertDesc, hc]
    · simp only [insertDesc, if_neg hc, List.mem_cons, ih]
      tauto

/-- Helper: the insertion step preserves sortedness by created_at descending. -/
theorem pairwise_insertDesc {r : JobRow} {l : List JobRow}
    (h : List.Pairwise (fun a b => b.created_at ≤ a.created_at) l) :
    List.Pairwise (fun a b => b.created_at ≤ a.created_at) (insertDesc r l) := by
  induction l with
  | nil => simp [insertDesc]
  | cons x xs ih =>
    rcases List.pairwise_cons.mp h with ⟨hx, hxs⟩
    by_cases hc : x.created_at ≤ r.created_at
    · rw [insertDesc, if_pos hc]
      refine List.pairwise_cons.mpr ⟨?_, h⟩
      intro y hy
      rcases List.mem_cons.mp hy with hy | hy
      · exact hy ▸ hc
      · exact le_trans (hx y hy) hc
    · rw [insertDesc, if_neg hc]
      refine List.pairwise_cons.mpr ⟨?_, ih hxs⟩
      intro y hy
      rcases mem_insertDesc.mp hy with hy | hy
      · exact hy ▸ le_of_lt (lt_of_not_le hc)
      · exact hx y hy

/-- Helper: the descending sort is a permutation membership-wise. -/
theorem mem_sortByCreatedDesc {y : JobRow} {l : List JobRow} :
    y ∈ sortByCreatedDesc l ↔ y ∈ l := by
  induction l with
  | nil => simp [sortByCreatedDesc]
  | cons x xs ih =>
    simp only [sortByCreatedDesc, mem_insertDesc, List.mem_cons, ih]

/-- Helper: the descending sort really sorts by created_at descending. -/
theorem pairwise_sortByCreatedDesc (l : List JobRow) :
    List.Pairwise (fun a b => b.created_at ≤ a.created_at) (sortByCreatedDesc l) := by
  induction l with
  | nil => exact List.Pairwise.nil
  | cons x xs ih => exact pairwise_insertDesc ih

/-- Helper: a status write keeps the row id. -/
theorem writeRow_id (w : StatusWrite) (r : JobRow) : (writeRow w r).id = r.id := by
  cases w <;> rfl

/-- Helper: a status write keeps the result column. -/
theorem writeRow_result (w : StatusWrite) (r : JobRow) : (writeRow w r).result = r.result := by
  cases w <;> rfl

/-- Helper: an UPDATE distributes over list append. -/
theorem applyWrite_append (l1 l2 : List JobRow) (id : String) (w : StatusWrite) :
    applyWrite (l1 ++ l2) id w = applyWrite l1 id w ++ applyWrite l2 id w :=
  List.map_append _ l1 l2

/-- Helper: an UPDATE keeps the column of job ids pointwise. -/
theorem applyWrite_ids (rows : List JobRow) (id : String) (w : StatusWrite) :
    (applyWrite rows id w).map (fun r => r.id) = rows.map (fun r => r.id) := by
  unfold applyWrite
  rw [List.map_map]
  refine List.map_congr_left (fun r hr => ?_)
  by_cases h : r.id = id
  · simp [h, writeRow_id]
  · simp [h]

/-- Helper: an UPDATE keeps the result column pointwise. -/
theorem applyWrite_results (rows : List JobRow) (id : String) (w : StatusWrite) :
    (applyWrite rows id w).map (fun r => r.result) = rows.map (fun r => r.result) := by
  unfold applyWrite
  rw [List.map_map]
  refine List.map_congr_left (fun r hr => ?_)
  by_cases h : r.id = id
  · simp [h, writeRow_result]
  · simp [h]

/-- Helper: a row of an updated table whose id differs from the written id was
already in the table unchanged. -/
theorem mem_applyWrite_of_ne {rows : List JobRow} {id : String} {w : StatusWrite}
    {r : JobRow} (hr : r ∈ applyWrite rows id w) (hne : r.id ≠ id) : r ∈ rows := by
  rcases List.mem_map.mp hr with ⟨r0, hr0, heq⟩
  by_cases h : r0.id = id
  · rw [if_pos h] at heq
    exact absurd ((heq ▸ writeRow_id w r0).trans h) hne
  · rw [if_neg h] at heq
    exact heq ▸ hr0

/-- Helper: a row of an updated table has the id of some row of the old table. -/
theorem mem_applyWrite_id {rows : List JobRow} {id : String} {w : StatusWrite} {r : JobRow}
    (hr : r ∈ applyWrite rows id w) : ∃ r0 ∈ rows, r.id = r0.id := by
  rcases List.mem_map.mp hr with ⟨r0, hr0, heq⟩
  by_cases h : r0.id = id
  · rw [if_pos h] at heq
    exact ⟨r0, hr0, heq ▸ writeRow_id w r0⟩
  · rw [if_neg h] at heq
    exact ⟨r0, hr0, heq ▸ rfl⟩

/-- Helper: a row of an updated table that carries the written id is the write
applied to a row of the old table carrying that id. -/
theorem mem_applyWrite_matching {rows : List JobRow} {id : String} {w : StatusWrite}
    {r : JobRow} (hr : r ∈ applyWrite rows id w) (hid : r.id = id) :
    ∃ r0 ∈ rows, r0.id = id ∧ r = writeRow w r0 := by
  rcases List.mem_map.mp hr with ⟨r0, hr0, heq⟩
  by_cases h : r0.id = id
  · rw [if_pos h] at heq
    exact ⟨r0, hr0, h, heq.symm⟩
  · rw [if_neg h] at heq
    exact absurd (heq ▸ hid) h

/-- Helper: on a valid job type and a fresh id, POST appends exactly one pending
row to the store and one message to the email queue. -/
theorem POST_success (sys : Sys) (body : Body) (newId : String) (now : Nat) (jt : String)
    (hb : body.jobType = some jt) (hc : validJobTypes.contains jt = true)
    (hany : sys.store.any (fun r => r.id = newId) = false) :
    POST sys body newId now =
      (PostResult.created newId,
       { store := sys.store ++ [postRow newId jt (body.jobData.getD jsonEmpty) now],
         queue := sys.queue ++ [postMsg newId jt (body.jobData.getD jsonEmpty) now] }) := by
  simp only [POST, hb, hc, if_true, hany, Bool.false_eq_true, if_false,
    publishEmailJob, publishJob, postRow, postMsg, Option.getD]

/-- C1: for every valid job type and fresh id (randomUUID modelled as a
caller-supplied identifier not yet present in the store), POST returns that id
with a 201 and, immediately after, GET by that id finds the inserted row with
status pending. -/
theorem submit_creates_pending (sys : Sys) (body : Body) (newId : String) (now : Nat)
    (jt : String) (hb : body.jobType = some jt) (hv : validJobTypes.contains jt = true)
    (hf : ∀ r ∈ sys.store, r.id ≠ newId) :
    (POST sys body newId now).1 = PostResult.created newId ∧
    GET (POST sys body newId now).2.store
        { jobId := some newId, status := none, jobType := none, limit := 50, offset := 0 } =
      GetResult.job (postRow newId jt (body.jobData.getD jsonEmpty) now) ∧
    (postRow newId jt (body.jobData.getD jsonEmpty) now).id = newId ∧
    (postRow newId jt (body.jobData.getD jsonEmpty) now).status = JobStatus.pending := by
  have hany : sys.store.any (fun r => r.id = newId) = false := by
    rw [List.any_eq_false]
    intro r hr
    exact fun h => hf r hr (of_decide_eq_true h)
  rw [POST_success sys body newId now jt hb hv hany]
  refine ⟨rfl, ?_, rfl, rfl⟩
  show GET (sys.store ++ [postRow newId jt (body.jobData.getD jsonEmpty) now]) _ = _
  unfold GET
  dsimp only
  rw [find_append_none _ _ _ (fun r hr => decide_eq_false (hf r hr))]
  simp [List.find?, postRow]

/-- C1 witness: a concrete submission on the empty system. -/
theorem submit_creates_pending_witness :
    (POST sysEmpty bodyEmail "a1" 7).1 = PostResult.created "a1" ∧
    GET (POST sysEmpty bodyEmail "a1" 7).2.store
        { jobId := some "a1", status := none, jobType := none, limit := 50, offset := 0 } =
      GetResult.job (postRow "a1" "email" jsonEmpty 7) ∧
    (postRow "a1" "email" jsonEmpty 7).id = "a1" ∧
    (postRow "a1" "email" jsonEmpty 7).status = JobStatus.pending :=
  submit_creates_pending sysEmpty bodyEmail "a1" 7 "email" rfl (by decide)
    (fun r hr => absurd hr (List.not_mem_nil r))

/-- C5: a submission whose job type is not registered is rejected with the 400
response and leaves the whole state (store and queue) unchanged. -/
theorem invalid_type_rejected (sys : Sys) (body : Body) (newId : String) (now : Nat)
    (h : isValidJobType body.jobType = false) :
    POST sys body newId now = (PostResult.invalidType, sys) := by
  cases hb : body.jobType with
  | none => simp only [POST, hb]
  | some jt =>
    rw [hb] at h
    have hc : validJobTypes.contains jt = false := h
    simp only [POST, hb, hc, Bool.false_eq_true, if_false]

/-- C5 witness: a concrete rejected submission of type sms. -/
theorem invalid_type_rejected_witness :
    POST sysEmpty bodyBad "a1" 7 = (PostResult.invalidType, sysEmpty) :=
  invalid_type_rejected sysEmpty bodyBad "a1" 7 (by decide)

/-- C6: the store write happens before the enqueue: POST preserves the
no-orphan invariant (every queued message references a store row), and when the
INSERT fails (duplicate id) the state, in particular the queue, is unchanged. -/
theorem store_write_before_enqueue (sys : Sys) (body : Body) (newId : String) (now : Nat)
    (ho : noOrphans sys) :
    noOrphans (POST sys body newId now).2 ∧
    (sys.store.any (fun r => r.id = newId) = true → (POST sys body newId now).2 = sys) := by
  cases hb : body.jobType with
  | none =>
    simp only [POST, hb]
    exact ⟨ho, fun h => trivial⟩
  | some jt =>
    by_cases hc : validJobTypes.contains jt = true
    · by_cases hany : sys.store.any (fun r => r.id = newId) = true
      · simp only [POST, hb, hc, if_true, hany]
        exact ⟨ho, fun h => trivial⟩
      · have hany' : sys.store.any (fun r => r.id = newId) = false := by
          revert hany
          cases sys.store.any (fun r => r.id = newId) <;> simp
        rw [POST_success sys body newId now jt hb hc hany']
        constructor
        · intro m hm
          rcases List.mem_append.mp hm with hm | hm
          · rcases ho m hm with ⟨r, hr, hid⟩
            exact ⟨r, List.mem_append_left _ hr, hid⟩
          · have hm' := List.mem_singleton.mp hm
            subst hm'
            exact ⟨postRow newId jt (body.jobData.getD jsonEmpty) now,
              List.mem_append_right _ (List.mem_singleton_self _), rfl⟩
        · intro h
          exact absurd h hany
    · have hc' : validJobTypes.contains jt = false := by
        revert hc
        cases validJobTypes.contains jt <;> simp
      simp only [POST, hb, hc', Bool.false_eq_true, if_false]
      exact ⟨ho, fun h => trivial⟩

/-- C6 witness: a duplicate-id INSERT failure on a concrete state enqueues
nothing and leaves the state unchanged. -/
theorem store_write_before_enqueue_witness :
    (POST sysDup bodyEmail "j1" 7).2 = sysDup :=
  (store_write_before_enqueue sysDup bodyEmail "j1" 7
    (fun m hm => absurd hm (List.not_mem_nil m))).2 (by decide)

/-- C10: every accepted submission, whatever its job type, is enqueued on the
single queue named email, the queue the worker consumes; any message in the
queue after POST was already there or is on the email queue. -/
theorem publish_single_queue (sys : Sys) (body : Body) (newId : String) (now : Nat)
    (jt : String) (hb : body.jobType = some jt) (hv : validJobTypes.contains jt = true)
    (hany : sys.store.any (fun r => r.id = newId) = false) :
    (POST sys body newId now).2.queue =
      sys.queue ++ [postMsg newId jt (body.jobData.getD jsonEmpty) now] ∧
    (postMsg newId jt (body.jobData.getD jsonEmpty) now).queueName = emailWorkerQueueName ∧
    ∀ m ∈ (POST sys body newId now).2.queue,
      m ∈ sys.queue ∨ m.queueName = emailWorkerQueueName := by
  rw [POST_success sys body newId now jt hb hv hany]
  refine ⟨rfl, rfl, ?_⟩
  intro m hm
  rcases List.mem_append.mp hm with hm | hm
  · exact Or.inl hm
  · have hm' := List.mem_singleton.mp hm
    subst hm'
    exact Or.inr rfl

/-- C10 witness: a concrete report-type submission still lands on the email
queue. -/
theorem publish_single_queue_witness :
    (POST sysEmpty bodyReport "a1" 7).2.queue =
      sysEmpty.queue ++ [postMsg "a1" "report" jsonEmpty 7] ∧
    (postMsg "a1" "report" jsonEmpty 7).queueName = emailWorkerQueueName :=
  ⟨(publish_single_queue sysEmpty bodyReport "a1" 7 "report" rfl (by decide) rfl).1,
   (publish_single_queue sysEmpty bodyReport "a1" 7 "report" rfl (by decide) rfl).2.1⟩

/-- C2 counterexample: the transition completed to processing is outside the
transition set the spec allows for updateStatus, yet the worker's UPDATE (the
first statement processEmailJob issues on any delivery, duplicates included)
applies it: the row is changed, not left unchanged, and no error is raised. -/
theorem invalid_transition_applied :
    specAllowedTransition JobStatus.completed JobStatus.processing = false ∧
    applyWrite [rowCompleted] "j1" (StatusWrite.toProcessing 5) ≠ [rowCompleted] ∧
    (applyWrite [rowCompleted] "j1" (StatusWrite.toProcessing 5)).map (fun r => r.status) =
      [JobStatus.processing] := by
  decide

/-- C2 amended: the worker's status updates are applied unconditionally. Every
row carrying the written id receives the requested status whatever its previous
status was, rows with other ids are untouched, and no transition is ever
rejected (no InvalidTransitionError exists in the code). -/
theorem applyWrite_unconditional (rows : List JobRow) (id : String) (w : StatusWrite) :
    (∀ r ∈ applyWrite rows id w, r.id = id → r.status = writeStatus w) ∧
    (∀ r ∈ rows, r.id ≠ id → r ∈ applyWrite rows id w) := by
  constructor
  · intro r hr hid
    rcases mem_applyWrite_matching hr hid with ⟨r0, hr0, hid0, heq⟩
    subst heq
    cases w <;> rfl
  · intro r hr hne
    exact List.mem_map.mpr ⟨r, hr, by rw [if_neg hne]⟩

/-- C2 amended witness: the completed example row, updated to processing. -/
theorem applyWrite_unconditional_witness :
    (writeRow (StatusWrite.toProcessing 5) rowCompleted).status = JobStatus.processing :=
  (applyWrite_unconditional [rowCompleted] "j1" (StatusWrite.toProcessing 5)).1
    _ (by decide) (by decide)

/-- C3 counterexample: delivering the same queue message twice executes the
handler twice, not at most once; there is no duplicate-delivery skip. -/
theorem duplicate_delivery_double_execution :
    ¬ ((runDeliveries [rowPending] msgPending
        [(Except.ok (), 1, 2), (Except.ok (), 3, 4)]).2.length ≤ 1) := by
  decide

/-- C3 amended: the worker has no duplicate-delivery protection: every delivery
of a message, whatever the current row status, executes the handler exactly
once, so n deliveries of the same message cause exactly n handler executions. -/
theorem one_execution_per_delivery (rows : List JobRow) (d : MsgData)
    (ds : List (Except String Unit × Nat × Nat)) :
    (runDeliveries rows d ds).2.length = ds.length := by
  induction ds generalizing rows with
  | nil => rfl
  | cons p rest ih =>
    obtain ⟨o, t1, t2⟩ := p
    cases o <;> simp [runDeliveries, processEmailJob, ih]

/-- C4 counterexample: a successful run marks the concrete pending row completed
with completed_at set, but no row of the table carries any result: the
handler's output is never recorded in the result column. -/
theorem success_leaves_result_null :
    (processEmailJob [rowPending] msgPending (Except.ok ()) 1 2).1.map
        (fun r => (r.status, r.completed_at)) = [(JobStatus.completed, some 2)] ∧
    ¬ ∃ r ∈ (processEmailJob [rowPending] msgPending (Except.ok ()) 1 2).1,
        r.result ≠ none := by
  decide

/-- C4 amended: for a job submitted through POST whose handler run succeeds,
the worker leaves the row completed with completed_at set to the completion
time, but the result column is not written and stays null. -/
theorem worker_success_completed_no_result (sys : Sys) (body : Body) (newId : String)
    (now t1 t2 : Nat) (d : MsgData) (jt : String)
    (hb : body.jobType = some jt) (hv : validJobTypes.contains jt = true)
    (hf : ∀ r ∈ sys.store, r.id ≠ newId) (hd : d.jobId = newId) :
    ((processEmailJob (POST sys body newId now).2.store d (Except.ok ()) t1 t2).1).find?
        (fun r => r.id = newId) =
      some (writeRow (StatusWrite.toCompleted t2) (writeRow (StatusWrite.toProcessing t1)
        (postRow newId jt (body.jobData.getD jsonEmpty) now))) ∧
    (writeRow (StatusWrite.toCompleted t2) (writeRow (StatusWrite.toProcessing t1)
        (postRow newId jt (body.jobData.getD jsonEmpty) now))).status = JobStatus.completed ∧
    (writeRow (StatusWrite.toCompleted t2) (writeRow (StatusWrite.toProcessing t1)
        (postRow newId jt (body.jobData.getD jsonEmpty) now))).completed_at = some t2 ∧
    (writeRow (StatusWrite.toCompleted t2) (writeRow (StatusWrite.toProcessing t1)
        (postRow newId jt (body.jobData.getD jsonEmpty) now))).result = none := by
  have hany : sys.store.any (fun r => r.id = newId) = false := by
    rw [List.any_eq_false]
    intro r hr
    exact fun h => hf r hr (of_decide_eq_true h)
  rw [POST_success sys body newId now jt hb hv hany]
  refine ⟨?_, rfl, rfl, rfl⟩
  show ((processEmailJob (sys.store ++ [postRow newId jt (body.jobData.getD jsonEmpty) now])
      d (Except.ok ()) t1 t2).1).find? (fun r => r.id = newId) = _
  unfold processEmailJob
  dsimp only
  rw [hd, applyWrite_append, applyWrite_append]
  rw [find_append_none]
  · simp [applyWrite, postRow, writeRow]
  · intro r hr
    rcases mem_applyWrite_id hr with ⟨r1, hr1, hid1⟩
    rcases mem_applyWrite_id hr1 with ⟨r0, hr0, hid0⟩
    exact decide_eq_false (hid1 ▸ hid0 ▸ hf r0 hr0)

/-- C4 amended witness: a concrete submission processed successfully ends
completed with a null result. -/
theorem worker_success_completed_no_result_witness :
    ((processEmailJob (POST sysEmpty bodyEmail "a1" 7).2.store msgA (Except.ok ()) 8 9).1).find?
        (fun r => r.id = "a1") =
      some (writeRow (StatusWrite.toCompleted 9) (writeRow (StatusWrite.toProcessing 8)
        (postRow "a1" "email" jsonEmpty 7))) ∧
    (writeRow (StatusWrite.toCompleted 9) (writeRow (StatusWrite.toProcessing 8)
        (postRow "a1" "email" jsonEmpty 7))).status = JobStatus.completed ∧
    (writeRow (StatusWrite.toCompleted 9) (writeRow (StatusWrite.toProcessing 8)
        (postRow "a1" "email" jsonEmpty 7))).completed_at = some 9 ∧
    (writeRow (StatusWrite.toCompleted 9) (writeRow (StatusWrite.toProcessing 8)
        (postRow "a1" "email" jsonEmpty 7))).result = none :=
  worker_success_completed_no_result sysEmpty bodyEmail "a1" 7 8 9 msgA "email" rfl
    (by decide) (fun r hr => absurd hr (List.not_mem_nil r)) rfl

/-- C7 counterexample: a completed row does not keep its status: the first
UPDATE processEmailJob issues on a redelivered message moves the concrete
completed row back to processing. -/
theorem completed_status_not_final :
    rowCompleted.status = JobStatus.completed ∧
    (applyWrite [rowCompleted] "j1" (StatusWrite.toProcessing 5)).map (fun r => r.status) =
      [JobStatus.processing] := by
  decide

/-- C7 amended: what does hold is that the result column never changes: no
worker status write touches it, so any sequence of worker writes leaves every
row's result exactly as it was; the status of a completed row, however, is not
protected and a duplicate delivery rewrites it. -/
theorem worker_never_writes_result (rows : List JobRow) (ops : List (String × StatusWrite)) :
    (runWrites rows ops).map (fun r => r.result) = rows.map (fun r => r.result) := by
  induction ops generalizing rows with
  | nil => rfl
  | cons p rest ih =>
    show (runWrites (applyWrite rows p.1 p.2) rest).map (fun r => r.result) = _
    rw [ih, applyWrite_results]

/-- C9 counterexample: a job that fails terminally has a null completed_at: the
failed UPDATE of processEmailJob does not write completed_at, contradicting the
claim that a terminally failed job has a non-null completedAt. -/
theorem failed_leaves_completedAt_null :
    (processEmailJob [rowPending] msgPending (Except.error "boom") 1 2).1.map
        (fun r => (r.status, r.completed_at)) = [(JobStatus.failed, none)] := by
  decide

/-- C9 amended: every worker status write sets updated_at to the write's time;
completed_at is set (to that same time) by every completed write and by no
other write, so a job that never completed and then fails terminally keeps a
null completed_at, while its updated_at still moves. -/
theorem worker_terminal_timestamps (rows : List JobRow) (d : MsgData) (e : String)
    (t1 t2 : Nat)
    (h : ∀ r ∈ rows, r.id = d.jobId → r.completed_at = none) :
    (∀ r ∈ (processEmailJob rows d (Except.error e) t1 t2).1, r.id = d.jobId →
       r.status = JobStatus.failed ∧ r.completed_at = none ∧
       r.updated_at = t2 ∧ r.error_message = some e) ∧
    (∀ r ∈ (processEmailJob rows d (Except.ok ()) t1 t2).1, r.id = d.jobId →
       r.status = JobStatus.completed ∧ r.completed_at = some t2 ∧ r.updated_at = t2) := by
  constructor
  · intro r hr hid
    rcases mem_applyWrite_matching hr hid with ⟨r1, hr1, hid1, heq1⟩
    rcases mem_applyWrite_matching hr1 hid1 with ⟨r0, hr0, hid0, heq0⟩
    subst heq1
    subst heq0
    exact ⟨rfl, h r0 hr0 hid0, rfl, rfl⟩
  · intro r hr hid
    rcases mem_applyWrite_matching hr hid with ⟨r1, hr1, hid1, heq1⟩
    subst heq1
    exact ⟨rfl, rfl, rfl⟩

/-- C9 amended witness: the concrete pending row after a terminal failure:
status failed, completed_at still null, updated_at moved, error recorded. -/
theorem worker_terminal_timestamps_witness :
    (writeRow (StatusWrite.toFailed "boom" 2) (writeRow (StatusWrite.toProcessing 1)
        rowPending)).status = JobStatus.failed ∧
    (writeRow (StatusWrite.toFailed "boom" 2) (writeRow (StatusWrite.toProcessing 1)
        rowPending)).completed_at = none ∧
    (writeRow (StatusWrite.toFailed "boom" 2) (writeRow (StatusWrite.toProcessing 1)
        rowPending)).updated_at = 2 ∧
    (writeRow (StatusWrite.toFailed "boom" 2) (writeRow (StatusWrite.toProcessing 1)
        rowPending)).error_message = some "boom" :=
  (worker_terminal_timestamps [rowPending] msgPending "boom" 1 2 (by decide)).1
    _ (by decide) (by decide)

/-- C8 counterexample: the GET list branch ignores a type filter present in the
query string: filtering for type email still returns the notification row. -/
theorem list_ignores_type_filter :
    GET [rowNotif]
        { jobId := none, status := none, jobType := some "email", limit := 10, offset := 0 } =
      GetResult.jobs [rowNotif] 1 10 0 ∧
    rowNotif.job_type ≠ "email" := by
  decide

/-- C8 amended: the list branch of GET filters by status only (the type filter
is not implemented), returns at most limit rows drawn from the table, and
orders them by created_at descending. -/
theorem get_list_spec (rows : List JobRow) (p : GetParams) (hp : p.jobId = none) :
    ∃ out, GET rows p = GetResult.jobs out out.length p.limit p.offset ∧
      out.length ≤ p.limit ∧
      (∀ r ∈ out, r ∈ rows) ∧
      (∀ s, p.status = some s → ∀ r ∈ out, statusText r.status = s) ∧
      List.Pairwise (fun a b => b.created_at ≤ a.created_at) out := by
  refine ⟨listQuery rows p.status p.limit p.offset, ?_, ?_, ?_, ?_, ?_⟩
  · unfold GET
    rw [hp]
  · unfold listQuery
    dsimp only
    rw [List.length_take]
    exact min_le_left _ _
  · intro r hr
    have hr1 : r ∈ sortByCreatedDesc (match p.status with
        | none => rows
        | some s => rows.filter (fun r => statusText r.status = s)) :=
      (List.drop_sublist _ _).subset ((List.take_sublist _ _).subset hr)
    have hr2 := mem_sortByCreatedDesc.mp hr1
    cases hs : p.status with
    | none => rw [hs] at hr2; exact hr2
    | some s =>
      rw [hs] at hr2
      exact (List.mem_filter.mp hr2).1
  · intro s hs r hr
    rw [hs] at hr
    have hr1 : r ∈ sortByCreatedDesc (rows.filter (fun r => statusText r.status = s)) :=
      (List.drop_sublist _ _).subset ((List.take_sublist _ _).subset hr)
    have hr2 := mem_sortByCreatedDesc.mp hr1
    exact of_decide_eq_true (List.mem_filter.mp hr2).2
  · have hsorted := pairwise_sortByCreatedDesc (match p.status with
      | none => rows
      | some s => rows.filter (fun r => statusText r.status = s))
    exact hsorted.sublist ((List.take_sublist _ _).trans (List.drop_sublist _ _))

/-- C8 amended witness: a concrete status-filtered list query on a one-row
table. -/
theorem get_list_spec_witness :
    ∃ out,
      GET [rowNotif]
        { jobId := none, status := some "completed", jobType := none, limit := 10, offset := 0 } =
        GetResult.jobs out out.length 10 0 ∧
      out.length ≤ 10 ∧
      (∀ r ∈ out, r ∈ [rowNotif]) ∧
      (∀ s, (some "completed" : Option String) = some s →
        ∀ r ∈ out, statusText r.status = s) ∧
      List.Pairwise (fun a b => b.created_at ≤ a.created_at) out :=
  get_list_spec [rowNotif]
    { jobId := none, status := some "completed", jobType := none, limit := 10, offset := 0 }
    rfl

end JobQueue
